import Mathlib

/-!
Verification development for the training-orchestration core of the
medical-image-classification repository (trainA.py = SWA regime,
trainB.py = SAM regime, train_c.py = cosine baseline).

Tensor entries are modelled as real numbers, one scalar per parameter
tensor (all the relevant tensor operations are elementwise except the
global gradient norm, which couples parameters and is modelled as the
l2 norm over the per-parameter scalars).  Integer quantities (epochs,
intervals, counters) are modelled as naturals.  Python exceptions
(ZeroDivisionError, FileNotFoundError, NameError, KeyError) are
modelled as Option/Except failures.
-/

namespace MedTrain

/-- One learnable parameter as the SAM optimizer of trainB.py sees it:
its current value `p.data`, its (possibly absent) gradient `p.grad`,
and the optimizer-state slot `self.state[p]["old_p"]`, absent until
`first_step` writes it. -/
structure SamParam where
  data : ℝ
  grad : Option ℝ
  old_p : Option ℝ

instance : Inhabited SamParam := ⟨⟨0, none, none⟩⟩

/-- One SAM parameter group: the `rho` and `adaptive` entries of the
group's defaults and its parameter list (trainB.py builds two such
groups, backbone and head). -/
structure SamGroup where
  rho : ℝ
  adaptive : Bool
  params : List SamParam

instance : Inhabited SamGroup := ⟨⟨0, false, []⟩⟩

/-- The literal `1e-12` appearing in `SAM.first_step`. -/
noncomputable def eps12 : ℝ := 1 / 10 ^ 12

/-- Effect of `zero_grad` on a single parameter (gradient cleared). -/
def zeroGradParam (p : SamParam) : SamParam := { p with grad := none }

/-- `SAM.zero_grad()`: clears every parameter's gradient. -/
def zero_grad (gs : List SamGroup) : List SamGroup :=
  gs.map fun grp => { grp with params := grp.params.map zeroGradParam }

/-- The entries stacked inside `SAM._grad_norm` (trainB.py lines 52-61):
for every parameter with a gradient, the scalar 2-norm of
`((abs p) if adaptive else 1) * p.grad`. -/
noncomputable def gradNormTerms (gs : List SamGroup) : List ℝ :=
  gs.flatMap fun grp => grp.params.filterMap fun p =>
    p.grad.map fun g => |(if grp.adaptive then |p.data| else 1) * g|

/-- `SAM._grad_norm`: the l2 norm of the stacked per-parameter norms. -/
noncomputable def grad_norm (gs : List SamGroup) : ℝ :=
  Real.sqrt (((gradNormTerms gs).map fun x => x ^ 2).sum)

/-- Body of the inner loop of `SAM.first_step` (trainB.py lines 36-40)
for one parameter, with the group's `rho`/`adaptive` and the already
computed global gradient norm `gn`: parameters without a gradient are
skipped; otherwise `old_p` snapshots `p.data` and
`e_w = (p^2 if adaptive else 1) * grad * (rho / (gn + 1e-12))` is
added to `p`. -/
noncomputable def firstStepParam (rho : ℝ) (adaptive : Bool) (gn : ℝ) (p : SamParam) :
    SamParam :=
  match p.grad with
  | none => p
  | some g =>
      { data := p.data + (if adaptive then p.data ^ 2 else 1) * g * (rho / (gn + eps12))
        grad := some g
        old_p := some p.data }

/-- `SAM.first_step` restricted to one group (the norm `gn` is computed
once, before the group loop). -/
noncomputable def firstStepGroup (gn : ℝ) (grp : SamGroup) : SamGroup :=
  { grp with params := grp.params.map (firstStepParam grp.rho grp.adaptive gn) }

/-- `SAM.first_step(zero_grad)` (trainB.py lines 31-41). -/
noncomputable def first_step (zeroGrad : Bool) (gs : List SamGroup) : List SamGroup :=
  if zeroGrad then zero_grad (gs.map (firstStepGroup (grad_norm gs)))
  else gs.map (firstStepGroup (grad_norm gs))

/-- Body of the restore loop of `SAM.second_step` for one parameter:
parameters without a gradient are skipped; otherwise
`p.data = self.state[p]["old_p"]`, a KeyError (`none`) if the snapshot
was never written. -/
def secondStepParam (p : SamParam) : Option SamParam :=
  match p.grad with
  | none => some p
  | some _ => p.old_p.map fun op => { p with data := op }

/-- The restore loop of `SAM.second_step` over one parameter list. -/
def secondStepRestoreParams : List SamParam → Option (List SamParam)
  | [] => some []
  | p :: ps =>
      match secondStepParam p, secondStepRestoreParams ps with
      | some q, some qs => some (q :: qs)
      | _, _ => none

/-- The restore loop of `SAM.second_step` over all groups
(trainB.py lines 45-48). -/
def secondStepRestore : List SamGroup → Option (List SamGroup)
  | [] => some []
  | grp :: gl =>
      match secondStepRestoreParams grp.params, secondStepRestore gl with
      | some ps, some rest => some ({ grp with params := ps } :: rest)
      | _, _ => none

/-- `SAM.second_step(zero_grad)` (trainB.py lines 43-50): restore every
gradient-bearing parameter to its snapshot, run the wrapped base
optimizer's update (an opaque collaborator here), then optionally clear
gradients. -/
def second_step (baseStep : List SamGroup → List SamGroup) (zeroGrad : Bool)
    (gs : List SamGroup) : Option (List SamGroup) :=
  (secondStepRestore gs).map fun r =>
    if zeroGrad then zero_grad (baseStep r) else baseStep r

/-- Modelled from the spec: the per-parameter perturbation of
`first_step` as the spec's words describe it, with the adaptive factor
`|p|` elementwise instead of the source's `p^2` (used only to compare
the spec's formula against the source's `firstStepParam`). -/
noncomputable def firstStepParamSpec (rho : ℝ) (adaptive : Bool) (gn : ℝ) (p : SamParam) :
    SamParam :=
  match p.grad with
  | none => p
  | some g =>
      { data := p.data + (if adaptive then |p.data| else 1) * g * (rho / (gn + eps12))
        grad := some g
        old_p := some p.data }

/-- Modelled from the spec: `first_step` with the spec's `|p|` adaptive
scaling of the perturbation. -/
noncomputable def first_step_specModel (zeroGrad : Bool) (gs : List SamGroup) :
    List SamGroup :=
  if zeroGrad then
    zero_grad (gs.map fun grp =>
      { grp with params := grp.params.map (firstStepParamSpec grp.rho grp.adaptive (grad_norm gs)) })
  else
    gs.map fun grp =>
      { grp with params := grp.params.map (firstStepParamSpec grp.rho grp.adaptive (grad_norm gs)) }

/-- Pointwise relation between the parameter lists of two groups. -/
def ParamsRel (r : SamParam → SamParam → Prop) (g₁ g₂ : SamGroup) : Prop :=
  List.Forall₂ r g₁.params g₂.params

/-- Pointwise relation between two optimizer states (same group and
parameter layout, related parameterwise by `r`). -/
def StateRel (r : SamParam → SamParam → Prop) (gs₁ gs₂ : List SamGroup) : Prop :=
  List.Forall₂ (ParamsRel r) gs₁ gs₂

/-- Events of one training step / epoch, shared across the three
regimes (forward and backward refer to the classifier model's passes;
the frozen encoder's no-gradient pass is an external collaborator and
is not traced). -/
inductive Ev where
  | forward
  | backward
  | zeroGradEv
  | clip
  | optStep
  | baseOptStep
  | firstStep
  | secondStep
  | mainSchedStep
  | swaUpdate
  | swaSchedStep
  deriving DecidableEq

/-- Events of one training step of trainB.train (lines 123-136): the
forward pass, then either the SAM two-phase protocol (when
`epoch >= sam_start_epoch`) or plain zero_grad/backward/base-step, and
finally the `clip_grad_norm_` call, which in this source is placed
after the optimizer update. -/
def trainB_step_events (epoch samStart : ℕ) : List Ev :=
  [Ev.forward] ++
    (if samStart ≤ epoch then
      [Ev.backward, Ev.firstStep, Ev.forward, Ev.backward, Ev.secondStep]
    else
      [Ev.zeroGradEv, Ev.backward, Ev.baseOptStep]) ++ [Ev.clip]

/-- Events of one training step of trainA.train (lines 79-88):
forward, zero_grad, backward, clip, optimizer step, and the one-cycle
scheduler step only while `epoch < swa_start_epoch`. -/
def trainA_step_events (epoch swaStart : ℕ) : List Ev :=
  [Ev.forward, Ev.zeroGradEv, Ev.backward, Ev.clip, Ev.optStep] ++
    (if epoch < swaStart then [Ev.mainSchedStep] else [])

/-- Events of one training step of train_c.train (lines 81-88); the
per-step learning-rate adjustment is a pure assignment and not traced. -/
def trainC_step_events : List Ev :=
  [Ev.forward, Ev.zeroGradEv, Ev.backward, Ev.clip, Ev.optStep]

/-- Events of one full training epoch of trainA.train: `nsteps` batch
steps followed, from `swa_start_epoch` on, by exactly one
`swa_model.update_parameters` and one `swa_scheduler.step`
(lines 96-98). -/
def trainA_epoch_events (epoch swaStart nsteps : ℕ) : List Ev :=
  (List.replicate nsteps (trainA_step_events epoch swaStart)).flatten ++
    (if swaStart ≤ epoch then [Ev.swaUpdate, Ev.swaSchedStep] else [])

/-- train_c.adjust_learning_rate (lines 286-305), evaluated at a
fractional epoch; `none` models Python's ZeroDivisionError (raised when
`epochs - warmup_epochs` is zero past warmup, or `warmup_epochs` is
zero inside warmup). -/
noncomputable def adjust_learning_rate_C (base_lr : ℝ) (warmup total : ℕ) (epoch : ℚ) :
    Option ℝ :=
  if epoch < (warmup : ℚ) then
    if warmup = 0 then none
    else some (base_lr * (epoch : ℝ) / (warmup : ℝ))
  else if total = warmup then none
  else
    some (base_lr * (1 / 2) *
      (1 + Real.cos (Real.pi * ((epoch : ℝ) - (warmup : ℝ)) / ((total : ℝ) - (warmup : ℝ)))))

/-- trainB.adjust_learning_rate (lines 190-202): computes one scale
factor (note the `(epoch + 1) / warmup_epochs` ramp) and applies it to
the backbone and head base rates; returns both group rates; `none`
models Python's ZeroDivisionError when `epochs == warmup_epochs` at or
past the warmup boundary. -/
noncomputable def adjust_learning_rate_B (backbone_lr head_lr : ℝ) (warmup total epoch : ℕ) :
    Option (ℝ × ℝ) :=
  if epoch < warmup then
    some (backbone_lr * (((epoch : ℝ) + 1) / (warmup : ℝ)),
          head_lr * (((epoch : ℝ) + 1) / (warmup : ℝ)))
  else if total = warmup then none
  else
    some (backbone_lr * ((1 : ℝ) / 2 * (1 + Real.cos (Real.pi * ((epoch : ℝ) - (warmup : ℝ)) / ((total : ℝ) - (warmup : ℝ))))),
          head_lr * ((1 : ℝ) / 2 * (1 + Real.cos (Real.pi * ((epoch : ℝ) - (warmup : ℝ)) / ((total : ℝ) - (warmup : ℝ))))))

/-- The global mode state touched by the eval routine, plus the
optimizer state it must not touch. -/
structure EvalCtx (σ : Type) where
  trainingMode : Bool
  gradEnabled : Bool
  optState : σ

/-- The batch loop of the eval routine: each batch's forward/loss may
raise (modelled as `Except.error`), which aborts the loop. -/
noncomputable def evalLoop {β ε : Type} (process : β → Except ε ℝ) : List β → ℝ → Except ε ℝ
  | [], acc => Except.ok acc
  | b :: bs, acc =>
      match process b with
      | Except.error e => Except.error e
      | Except.ok l => evalLoop process bs (acc + l)

/-- The eval routine of trainA.py (lines 181-210) / train_c.py
(lines 151-188): enters eval mode and disables gradient tracking,
runs the batch loop, and only on normal completion re-enables
train mode and gradient tracking (there is no try/finally in the
source, so an exception propagates with the modes still disabled).
The average uses train_c's empty-loader guard. -/
noncomputable def evalRun {β ε σ : Type} (process : β → Except ε ℝ) (batches : List β)
    (ctx : EvalCtx σ) : EvalCtx σ × Except ε ℝ :=
  match evalLoop process batches 0 with
  | Except.error e =>
      ({ ctx with trainingMode := false, gradEnabled := false }, Except.error e)
  | Except.ok total =>
      ({ ctx with trainingMode := true, gradEnabled := true },
        Except.ok (if batches.length = 0 then 0 else total / (batches.length : ℝ)))

/-- The on-disk checkpoint record written by train_c.save_checkpoint:
`{epoch, state_dict, optimizer}`; the model and optimizer state dicts
are opaque. -/
structure Checkpoint (μ ω : Type) where
  epoch : ℕ
  state_dict : μ
  optimizer : ω

/-- train_c.save_checkpoint (lines 308-315): writes the checkpoint
record at the given path of a filesystem modelled as a map from paths
to optional checkpoint contents. -/
def save_checkpoint {π μ ω : Type} [DecidableEq π] (fs : π → Option (Checkpoint μ ω))
    (path : π) (ep : ℕ) (m : μ) (o : ω) : π → Option (Checkpoint μ ω) :=
  fun q => if q = path then some ⟨ep, m, o⟩ else fs q

/-- train_c.resume (lines 324-340): raises FileNotFoundError
(`Except.error ()`) when the configured path does not exist; otherwise
loads the model and optimizer state dicts and returns the saved epoch
plus one. -/
def resume {π μ ω : Type} (fs : π → Option (Checkpoint μ ω)) (path : π) :
    Except Unit (ℕ × μ × ω) :=
  match fs path with
  | none => Except.error ()
  | some c => Except.ok (c.epoch + 1, c.state_dict, c.optimizer)

/-- The model-weight files a regime can write under the save directory:
best_validation_weights.pt, final_weights.pt, swa_model_final_weights.pt
and checkpoint.pt. -/
inductive WeightsFile where
  | bestValidation
  | finalWeights
  | swaFinal
  | ckptFile
  deriving DecidableEq

/-- The weight files trainA.train writes after its epoch loop ends
(lines 127-149): only the recalibrated averaged model,
swa_model_final_weights.pt. -/
def trainA_run_end_saves : List WeightsFile := [WeightsFile.swaFinal]

/-- The weight files trainB.train writes after its epoch loop ends
(line 164): final_weights.pt. -/
def trainB_run_end_saves : List WeightsFile := [WeightsFile.finalWeights]

/-- The weight files train_c.train writes after its epoch loop ends
(lines 147-148): final_weights.pt. -/
def trainC_run_end_saves : List WeightsFile := [WeightsFile.finalWeights]

/-- The four history lists of train_c.train plus the current values of
the `val_loss` / `validation_acc` locals (`none` before their first
assignment, so that reading them then is Python's NameError). -/
structure HistState where
  train_loss : List ℝ
  train_acc : List ℝ
  val_loss : List ℝ
  val_acc : List ℝ
  cur : Option (ℝ × ℝ)

/-- One epoch of the history bookkeeping of train_c.train
(lines 111-135): validation runs when `epoch % eval_interval == 0`
(`% 0` is Python's ZeroDivisionError, modelled as `none`), rebinding
the validation locals; then all four histories are appended, reading
the validation locals as they stand (NameError, `none`, if validation
never ran).  The oracles `tl ta vl va` give the training metrics of
each epoch and the validation metrics validation would compute at each
epoch. -/
def histStep (k : ℕ) (tl ta vl va : ℕ → ℝ) (s : HistState) (e : ℕ) : Option HistState :=
  if k = 0 then none
  else
    match (if e % k = 0 then { s with cur := some (vl e, va e) } else s) with
    | s₁ =>
      match s₁.cur with
      | none => none
      | some pr =>
          some { s₁ with
            train_loss := s₁.train_loss ++ [tl e]
            train_acc := s₁.train_acc ++ [ta e]
            val_loss := s₁.val_loss ++ [pr.1]
            val_acc := s₁.val_acc ++ [pr.2] }

/-- The empty history state at the start of train_c.train. -/
def histInit : HistState := ⟨[], [], [], [], none⟩

/-- The history bookkeeping of the train_c epoch loop started at
epoch 0 and run for `n` epochs. -/
def histRun (k : ℕ) (tl ta vl va : ℕ → ℝ) (n : ℕ) : Option HistState :=
  (List.range n).foldl (fun s? e => s?.bind fun s => histStep k tl ta vl va s e)
    (some histInit)

/-- The most recent epoch at or before `e` on which train_c validation
ran, i.e. the last multiple of the eval interval `k`. -/
def lastEvalEpoch (k : ℕ) : ℕ → ℕ
  | 0 => 0
  | e + 1 => if (e + 1) % k = 0 then e + 1 else lastEvalEpoch k e

/-- The best-checkpoint / early-stopping tail of the trainA epoch loop
(lines 115-125), processing the per-epoch validation indicator values:
state is `(max_indicator, epochs_no_improve, best saves so far)`; a
strict improvement saves best weights and resets the stall counter,
otherwise the counter increments; the loop breaks once the counter
reaches `patience`.  Returns how many times best weights were saved. -/
def trainASelectGo (patience : ℕ) : ℚ → ℕ → ℕ → List ℚ → ℕ
  | _, _, saves, [] => saves
  | maxInd, noImp, saves, ind :: rest =>
    if maxInd < ind then
      if patience = 0 then saves + 1
      else trainASelectGo patience ind 0 (saves + 1) rest
    else
      if patience ≤ noImp + 1 then saves
      else trainASelectGo patience maxInd (noImp + 1) saves rest

/-- trainA best-checkpoint tracking started from `max_indicator = 0`. -/
def trainA_best_saves (patience : ℕ) (inds : List ℚ) : ℕ :=
  trainASelectGo patience 0 0 0 inds

/-- The best-checkpoint tail of the trainB epoch loop (lines 159-162):
no early stopping, best weights saved only on strict improvement. -/
def trainBSelectGo : ℚ → ℕ → List ℚ → ℕ
  | _, saves, [] => saves
  | maxInd, saves, ind :: rest =>
    if maxInd < ind then trainBSelectGo ind (saves + 1) rest
    else trainBSelectGo maxInd saves rest

/-- trainB best-checkpoint tracking started from `max_indicator = 0`. -/
def trainB_best_saves (inds : List ℚ) : ℕ :=
  trainBSelectGo 0 0 inds

/-- C2 (code bug): in the trainB (SAM) regime the `clip_grad_norm_`
call is the final event of the training step, issued only after the
optimizer update (`second_step`, or `base_optimizer.step()` before the
SAM phase), so no point of the step lies after clipping and before the
update; trainA and train_c clip between backward and the optimizer
step as the claim states. -/
theorem trainB_clips_after_optimizer_update :
    trainB_step_events 0 0 =
      [Ev.forward, Ev.backward, Ev.firstStep, Ev.forward, Ev.backward, Ev.secondStep, Ev.clip]
    ∧ trainB_step_events 0 1 =
      [Ev.forward, Ev.zeroGradEv, Ev.backward, Ev.baseOptStep, Ev.clip]
    ∧ trainA_step_events 0 1 =
      [Ev.forward, Ev.zeroGradEv, Ev.backward, Ev.clip, Ev.optStep, Ev.mainSchedStep]
    ∧ trainC_step_events = [Ev.forward, Ev.zeroGradEv, Ev.backward, Ev.clip, Ev.optStep] := by
  refine ⟨?_, ?_, ?_, ?_⟩ <;> decide

/-- C5 (code bug): when `warmup_epochs == epochs`, both warmup+cosine
schedules hit `(epoch - warmup_epochs) / (epochs - warmup_epochs)`
with a zero denominator at every epoch at or past the warmup boundary
and raise ZeroDivisionError (modelled as `none`) instead of returning
a defined value: here at `warmup_epochs = epochs = 5`, for epochs 5,
11/2 (fractional, train_c) and 7. -/
theorem schedule_zero_division_at_boundary :
    adjust_learning_rate_C 1 5 5 5 = none
    ∧ adjust_learning_rate_C 1 5 5 (11 / 2) = none
    ∧ adjust_learning_rate_B 1 1 5 5 5 = none
    ∧ adjust_learning_rate_B 1 1 5 5 7 = none := by
  refine ⟨?_, ?_, ?_, ?_⟩ <;> norm_num [adjust_learning_rate_C, adjust_learning_rate_B]

/-- C7: resume raises FileNotFoundError exactly when the configured
checkpoint path is absent; when the path holds a checkpoint, resume
returns the saved epoch plus one with the saved model and optimizer
state dicts, so a run checkpointed at epoch `e` by save_checkpoint
restarts at epoch `e + 1` with the state of the moment of saving. -/
theorem resume_fidelity {π μ ω : Type} [DecidableEq π]
    (fs : π → Option (Checkpoint μ ω)) (path : π) :
    (resume fs path = Except.error () ↔ fs path = none)
    ∧ (∀ c : Checkpoint μ ω, fs path = some c →
        resume fs path = Except.ok (c.epoch + 1, c.state_dict, c.optimizer))
    ∧ (∀ (e : ℕ) (m : μ) (o : ω),
        resume (save_checkpoint fs path e m o) path = Except.ok (e + 1, m, o)) := by
  refine ⟨?_, ?_, ?_⟩
  · cases h : fs path <;> simp [resume, h]
  · intro c h; simp [resume, h]
  · intro e m o; simp [resume, save_checkpoint]

/-- A one-file filesystem holding a checkpoint of epoch 3 at path 0,
used to witness resume_fidelity. -/
def fsW : ℕ → Option (Checkpoint ℕ ℕ) :=
  fun q => if q = 0 then some ⟨3, 10, 20⟩ else none

/-- Witness for resume_fidelity: on the concrete filesystem fsW,
resuming from the existing path 0 yields epoch 4 with the saved
states, and resuming from the missing path 1 is the
FileNotFoundError case. -/
theorem resume_fidelity_witness :
    resume fsW 0 = Except.ok (3 + 1, 10, 20) ∧ resume fsW 1 = Except.error () :=
  ⟨(resume_fidelity fsW 0).2.1 ⟨3, 10, 20⟩ rfl,
   ((resume_fidelity fsW 1).1).mpr rfl⟩

/-- C8 counterexample: trainA (the SWA regime) never writes
final_weights.pt at run end, refuting the claim that every regime
persists final_weights.pt. -/
theorem trainA_missing_final_weights :
    WeightsFile.finalWeights ∉ trainA_run_end_saves := by decide

/-- C8 (amended): at run end the SAM and baseline regimes persist
final_weights.pt, while the SWA regime persists exactly the separately
recalibrated averaged-model checkpoint swa_model_final_weights.pt and
no plain final_weights.pt. -/
theorem run_end_save_files :
    WeightsFile.finalWeights ∈ trainB_run_end_saves
    ∧ WeightsFile.finalWeights ∈ trainC_run_end_saves
    ∧ trainA_run_end_saves = [WeightsFile.swaFinal] := by
  refine ⟨?_, ?_, ?_⟩ <;> decide

/-- Helper: the trainA best/early-stop tail saves nothing when the
running maximum is already at least every incoming indicator. -/
lemma trainASelectGo_no_save (patience : ℕ) (inds : List ℚ) :
    ∀ (maxInd : ℚ) (noImp saves : ℕ), 0 ≤ maxInd → (∀ i ∈ inds, i ≤ 0) →
      trainASelectGo patience maxInd noImp saves inds = saves := by
  induction inds with
  | nil => intro maxInd noImp saves _ _; rfl
  | cons a rest ih =>
      intro maxInd noImp saves hmax h
      have ha : a ≤ 0 := h a (by simp)
      have hlt : ¬ maxInd < a := not_lt.mpr (ha.trans hmax)
      simp only [trainASelectGo, if_neg hlt]
      split
      · rfl
      · exact ih maxInd (noImp + 1) saves hmax fun i hi => h i (by simp [hi])

/-- Helper: the trainB best-save tail saves nothing when the running
maximum is already at least every incoming indicator. -/
lemma trainBSelectGo_no_save (inds : List ℚ) :
    ∀ (maxInd : ℚ) (saves : ℕ), 0 ≤ maxInd → (∀ i ∈ inds, i ≤ 0) →
      trainBSelectGo maxInd saves inds = saves := by
  induction inds with
  | nil => intro maxInd saves _ _; rfl
  | cons a rest ih =>
      intro maxInd saves hmax h
      have ha : a ≤ 0 := h a (by simp)
      have hlt : ¬ maxInd < a := not_lt.mpr (ha.trans hmax)
      simp only [trainBSelectGo, if_neg hlt]
      exact ih maxInd saves hmax fun i hi => h i (by simp [hi])

/-- C10: with `max_indicator` initialized to 0 and best weights saved
only on strict improvement, a run whose per-epoch validation indicator
never exceeds 0 never writes best_validation_weights.pt, in both the
SWA (trainA) and SAM (trainB) loops. -/
theorem best_weights_never_saved_nonpositive (patience : ℕ) (inds : List ℚ)
    (h : ∀ i ∈ inds, i ≤ 0) :
    trainA_best_saves patience inds = 0 ∧ trainB_best_saves inds = 0 :=
  ⟨trainASelectGo_no_save patience inds 0 0 0 le_rfl h,
   trainBSelectGo_no_save inds 0 0 le_rfl h⟩

/-- Witness for best_weights_never_saved_nonpositive on the concrete
indicator sequence [0, -1, -2] with patience 3. -/
theorem best_weights_never_saved_nonpositive_witness :
    trainA_best_saves 3 [0, -1, -2] = 0 ∧ trainB_best_saves [0, -1, -2] = 0 :=
  best_weights_never_saved_nonpositive 3 [0, -1, -2] (by
    intro i hi
    fin_cases hi <;> norm_num)

/-- C4 counterexample: a batch whose forward/loss raises makes the
eval routine propagate the exception with the model still in eval mode
and gradient tracking still disabled (the source has no try/finally),
refuting restoration on every exit path. -/
theorem eval_exception_leaves_modes_disabled :
    (evalRun (fun _ : ℕ => (Except.error 0 : Except ℕ ℝ)) [0]
        (⟨true, true, (0 : ℕ)⟩ : EvalCtx ℕ)).1.gradEnabled = false
    ∧ (evalRun (fun _ : ℕ => (Except.error 0 : Except ℕ ℝ)) [0]
        (⟨true, true, (0 : ℕ)⟩ : EvalCtx ℕ)).1.trainingMode = false
    ∧ (evalRun (fun _ : ℕ => (Except.error 0 : Except ℕ ℝ)) [0]
        (⟨true, true, (0 : ℕ)⟩ : EvalCtx ℕ)).2 = Except.error 0 := by
  refine ⟨?_, ?_, ?_⟩ <;> simp [evalRun, evalLoop]

/-- Helper: if no batch raises, the eval batch loop completes
normally. -/
lemma evalLoop_ok_of_forall {β ε : Type} (process : β → Except ε ℝ) (l : List β)
    (h : ∀ b ∈ l, ∃ v, process b = Except.ok v) :
    ∀ acc, ∃ t, evalLoop process l acc = Except.ok t := by
  induction l with
  | nil => intro acc; exact ⟨acc, rfl⟩
  | cons b bs ih =>
      intro acc
      obtain ⟨v, hv⟩ := h b (by simp)
      obtain ⟨t, ht⟩ := ih (fun x hx => h x (by simp [hx])) (acc + v)
      exact ⟨t, by simp [evalLoop, hv, ht]⟩

/-- C4 (amended): the eval routine leaves optimizer state untouched on
every exit path, and on the normal path (no batch raises) it returns
with train mode and gradient tracking re-enabled; on an exceptional
path the modes are left disabled (see
eval_exception_leaves_modes_disabled). -/
theorem eval_mode_restoration {β ε σ : Type} (process : β → Except ε ℝ)
    (batches : List β) (ctx : EvalCtx σ) :
    (evalRun process batches ctx).1.optState = ctx.optState
    ∧ ((∀ b ∈ batches, ∃ v, process b = Except.ok v) →
        (evalRun process batches ctx).1.trainingMode = true
        ∧ (evalRun process batches ctx).1.gradEnabled = true) := by
  constructor
  · rcases hE : evalLoop process batches 0 with e | t <;> simp [evalRun, hE]
  · intro h
    obtain ⟨t, ht⟩ := evalLoop_ok_of_forall process batches h 0
    simp [evalRun, ht]

/-- Witness for eval_mode_restoration: a one-batch loader that
succeeds, starting from eval mode with gradient tracking disabled and
optimizer state 7; the routine exits in train mode with gradient
tracking enabled and optimizer state 7 intact. -/
theorem eval_mode_restoration_witness :
    (evalRun (fun _ : ℕ => (Except.ok 1 : Except ℕ ℝ)) [0]
        (⟨false, false, (7 : ℕ)⟩ : EvalCtx ℕ)).1.optState = 7
    ∧ (evalRun (fun _ : ℕ => (Except.ok 1 : Except ℕ ℝ)) [0]
        (⟨false, false, (7 : ℕ)⟩ : EvalCtx ℕ)).1.trainingMode = true
    ∧ (evalRun (fun _ : ℕ => (Except.ok 1 : Except ℕ ℝ)) [0]
        (⟨false, false, (7 : ℕ)⟩ : EvalCtx ℕ)).1.gradEnabled = true := by
  have h := eval_mode_restoration (fun _ : ℕ => (Except.ok 1 : Except ℕ ℝ)) [0]
    (⟨false, false, (7 : ℕ)⟩ : EvalCtx ℕ)
  have hok : ∀ b ∈ ([0] : List ℕ), ∃ v, (fun _ : ℕ => (Except.ok 1 : Except ℕ ℝ)) b = Except.ok v :=
    fun b _ => ⟨1, rfl⟩
  exact ⟨h.1, (h.2 hok).1, (h.2 hok).2⟩

/-- Helper: counting events in `nsteps` identical batch steps. -/
lemma count_flatten_replicate (a : Ev) (n : ℕ) (l : List Ev) :
    ((List.replicate n l).flatten).count a = n * l.count a := by
  induction n with
  | zero => simp
  | succ m ih =>
      rw [List.replicate_succ, List.flatten_cons, List.count_append, ih]
      ring

/-- C6: in a trainA epoch with `swa_start_epoch = k` and `n` batch
steps, before epoch k the one-cycle schedule is stepped once per batch
step and the shadow model receives no accumulation; from epoch k on
the shadow model accumulates exactly one parameter sample, the
one-cycle schedule is suspended, and the SWALR averaging schedule is
stepped. -/
theorem swa_phase_transition (e k n : ℕ) :
    (e < k →
      (trainA_epoch_events e k n).count Ev.mainSchedStep = n
      ∧ (trainA_epoch_events e k n).count Ev.swaUpdate = 0
      ∧ (trainA_epoch_events e k n).count Ev.swaSchedStep = 0)
    ∧ (k ≤ e →
      (trainA_epoch_events e k n).count Ev.mainSchedStep = 0
      ∧ (trainA_epoch_events e k n).count Ev.swaUpdate = 1
      ∧ (trainA_epoch_events e k n).count Ev.swaSchedStep = 1) := by
  constructor
  · intro h
    have hnot : ¬ k ≤ e := not_le.mpr h
    have hstep : trainA_step_events e k =
        [Ev.forward, Ev.zeroGradEv, Ev.backward, Ev.clip, Ev.optStep, Ev.mainSchedStep] := by
      simp [trainA_step_events, h]
    have hev : trainA_epoch_events e k n =
        (List.replicate n (trainA_step_events e k)).flatten := by
      simp [trainA_epoch_events, hnot]
    rw [hev, hstep]
    refine ⟨?_, ?_, ?_⟩ <;> rw [count_flatten_replicate] <;>
      simp [List.count_cons, List.count_nil]
  · intro h
    have hnot : ¬ e < k := not_lt.mpr h
    have hstep : trainA_step_events e k =
        [Ev.forward, Ev.zeroGradEv, Ev.backward, Ev.clip, Ev.optStep] := by
      simp [trainA_step_events, hnot]
    have hev : trainA_epoch_events e k n =
        (List.replicate n (trainA_step_events e k)).flatten
          ++ [Ev.swaUpdate, Ev.swaSchedStep] := by
      simp [trainA_epoch_events, h]
    rw [hev, hstep]
    refine ⟨?_, ?_, ?_⟩ <;> rw [List.count_append, count_flatten_replicate] <;>
      simp [List.count_cons, List.count_nil]

/-- Witness for swa_phase_transition at epoch 1 (before the start
epoch 3) and epoch 5 (past it), with 2 batch steps per epoch. -/
theorem swa_phase_transition_witness :
    ((trainA_epoch_events 1 3 2).count Ev.mainSchedStep = 2
      ∧ (trainA_epoch_events 1 3 2).count Ev.swaUpdate = 0
      ∧ (trainA_epoch_events 1 3 2).count Ev.swaSchedStep = 0)
    ∧ ((trainA_epoch_events 5 3 2).count Ev.mainSchedStep = 0
      ∧ (trainA_epoch_events 5 3 2).count Ev.swaUpdate = 1
      ∧ (trainA_epoch_events 5 3 2).count Ev.swaSchedStep = 1) :=
  ⟨(swa_phase_transition 1 3 2).1 (by omega), (swa_phase_transition 5 3 2).2 (by omega)⟩

/-- Helper: on eval epochs the most recent validated epoch is the
epoch itself. -/
lemma lastEvalEpoch_of_mod (k e : ℕ) (h : e % k = 0) : lastEvalEpoch k e = e := by
  cases e with
  | zero => rfl
  | succ m => simp [lastEvalEpoch, h]

/-- Helper: on non-eval epochs the most recent validated epoch is the
previous epoch's. -/
lemma lastEvalEpoch_of_mod_ne (k m : ℕ) (h : (m + 1) % k ≠ 0) :
    lastEvalEpoch k (m + 1) = lastEvalEpoch k m := by
  simp [lastEvalEpoch, h]

/-- Helper: `lastEvalEpoch k e` is the greatest multiple of k at or
below e. -/
lemma lastEvalEpoch_spec (k : ℕ) :
    ∀ e, (lastEvalEpoch k e) % k = 0 ∧ lastEvalEpoch k e ≤ e
      ∧ ∀ m, m ≤ e → m % k = 0 → m ≤ lastEvalEpoch k e := by
  intro e
  induction e with
  | zero =>
      exact ⟨by simp [lastEvalEpoch], Nat.le_refl 0, fun m hm _ => by omega⟩
  | succ i ih =>
      by_cases h : (i + 1) % k = 0
      · rw [lastEvalEpoch_of_mod k (i + 1) h]
        exact ⟨h, le_rfl, fun m hm _ => hm⟩
      · rw [lastEvalEpoch_of_mod_ne k i h]
        refine ⟨ih.1, ih.2.1.trans (by omega), ?_⟩
        intro m hm hmod
        rcases Nat.lt_or_ge m (i + 1) with hlt | hge
        · exact ih.2.2 m (by omega) hmod
        · have hme : m = i + 1 := by omega
          rw [hme] at hmod
          exact absurd hmod h

/-- Helper: closed form of the train_c history loop run for `n` epochs
from epoch 0 with positive eval interval `k`. -/
lemma histRun_closed (k : ℕ) (hk : 0 < k) (tl ta vl va : ℕ → ℝ) :
    ∀ n, histRun k tl ta vl va n =
      some ⟨(List.range n).map tl, (List.range n).map ta,
            (List.range n).map (fun e => vl (lastEvalEpoch k e)),
            (List.range n).map (fun e => va (lastEvalEpoch k e)),
            if n = 0 then none
            else some (vl (lastEvalEpoch k (n - 1)), va (lastEvalEpoch k (n - 1)))⟩ := by
  intro n
  induction n with
  | zero => rfl
  | succ m ih =>
      have hm : histRun k tl ta vl va (m + 1)
          = (histRun k tl ta vl va m).bind (fun s => histStep k tl ta vl va s m) := by
        rw [histRun, histRun, List.range_succ, List.foldl_append]
        rfl
      rw [hm, ih]
      have hk0 : ¬ k = 0 := by omega
      by_cases hmod : m % k = 0
      · have hlast : lastEvalEpoch k m = m := lastEvalEpoch_of_mod k m hmod
        simp [histStep, hk0, hmod, hlast, List.range_succ]
      · have hmpos : m ≠ 0 := by
          intro h0
          rw [h0] at hmod
          exact hmod (Nat.zero_mod k)
        have hlast : lastEvalEpoch k m = lastEvalEpoch k (m - 1) := by
          cases m with
          | zero => exact absurd rfl hmpos
          | succ i => exact lastEvalEpoch_of_mod_ne k i hmod
        simp [histStep, hk0, hmod, hmpos, hlast, List.range_succ]

/-- C9: started at epoch 0 with a positive eval interval k, the
train_c history loop raises nothing, appends exactly one record per
completed epoch to each of the four lists, and on every epoch appends
as validation loss/accuracy the values computed at the most recent
epoch on which validation actually ran, `lastEvalEpoch k e` (the
greatest multiple of k at or below e): stale values are carried
forward unchanged on epochs with `e % k ≠ 0`. -/
theorem trainC_history_one_append_and_carry (k n : ℕ) (tl ta vl va : ℕ → ℝ)
    (hk : 0 < k) :
    (∃ s : HistState, histRun k tl ta vl va n = some s
      ∧ s.train_loss = (List.range n).map tl
      ∧ s.train_acc = (List.range n).map ta
      ∧ s.val_loss = (List.range n).map (fun e => vl (lastEvalEpoch k e))
      ∧ s.val_acc = (List.range n).map (fun e => va (lastEvalEpoch k e))
      ∧ s.train_loss.length = n ∧ s.train_acc.length = n
      ∧ s.val_loss.length = n ∧ s.val_acc.length = n)
    ∧ (∀ e, (lastEvalEpoch k e) % k = 0 ∧ lastEvalEpoch k e ≤ e
        ∧ ∀ m, m ≤ e → m % k = 0 → m ≤ lastEvalEpoch k e) := by
  refine ⟨⟨_, histRun_closed k hk tl ta vl va n, rfl, rfl, rfl, rfl, ?_, ?_, ?_, ?_⟩,
    lastEvalEpoch_spec k⟩ <;> simp

/-- The identity oracle used to witness the history-loop theorem. -/
noncomputable def natR : ℕ → ℝ := fun e => (e : ℝ)

/-- Witness for trainC_history_one_append_and_carry with eval interval
2 over 3 epochs. -/
theorem trainC_history_one_append_and_carry_witness :
    (∃ s : HistState, histRun 2 natR natR natR natR 3 = some s
      ∧ s.train_loss = (List.range 3).map natR
      ∧ s.train_acc = (List.range 3).map natR
      ∧ s.val_loss = (List.range 3).map (fun e => natR (lastEvalEpoch 2 e))
      ∧ s.val_acc = (List.range 3).map (fun e => natR (lastEvalEpoch 2 e))
      ∧ s.train_loss.length = 3 ∧ s.train_acc.length = 3
      ∧ s.val_loss.length = 3 ∧ s.val_acc.length = 3)
    ∧ lastEvalEpoch 2 5 ≤ 5 := by
  have h := trainC_history_one_append_and_carry 2 3 natR natR natR natR (by omega)
  exact ⟨h.1, (h.2 5).2.1⟩

/-- Helper: `first_step true` as one map, exposing the per-parameter
composite of the perturbation and the trailing zero_grad. -/
lemma first_step_true_eq (gs : List SamGroup) :
    first_step true gs = gs.map fun grp =>
      { grp with params := grp.params.map fun p =>
          zeroGradParam (firstStepParam grp.rho grp.adaptive (grad_norm gs) p) } := by
  simp only [first_step, if_pos, zero_grad, List.map_map]
  apply List.map_congr_left
  intro grp _
  simp only [Function.comp, firstStepGroup, List.map_map]
  rfl

/-- Helper: two pointwise relations over the same list pair combine. -/
lemma forall₂_conj {α β : Type} {r s : α → β → Prop} {l₁ : List α} {l₂ : List β}
    (h₁ : List.Forall₂ r l₁ l₂) (h₂ : List.Forall₂ s l₁ l₂) :
    List.Forall₂ (fun a b => r a b ∧ s a b) l₁ l₂ := by
  induction h₁ with
  | nil => exact List.Forall₂.nil
  | cons ha ht ih =>
      cases h₂ with
      | cons hb htb => exact List.Forall₂.cons ⟨ha, hb⟩ (ih htb)

/-- Helper: the second_step restore of a single parameter succeeds and
returns the pre-perturbation value, given the facts first_step
establishes and a fresh gradient that is present exactly when the
first-pass gradient was. -/
lemma secondStepParam_eq_of (po pn : SamParam)
    (hdo : po.grad = none → pn.data = po.data)
    (hds : ∀ g, po.grad = some g → pn.old_p = some po.data)
    (hg : pn.grad.isSome = po.grad.isSome) :
    ∃ q, secondStepParam pn = some q ∧ q.data = po.data := by
  cases hpo : po.grad with
  | none =>
      have hn : pn.grad = none := by
        rw [hpo] at hg
        cases hpn : pn.grad
        · rfl
        · rw [hpn] at hg; simp at hg
      exact ⟨pn, by simp [secondStepParam, hn], hdo hpo⟩
  | some g =>
      have hs : ∃ g2, pn.grad = some g2 := by
        rw [hpo] at hg
        cases hpn : pn.grad
        · rw [hpn] at hg; simp at hg
        · exact ⟨_, rfl⟩
      obtain ⟨g2, hg2⟩ := hs
      refine ⟨{ pn with data := po.data }, ?_, rfl⟩
      simp [secondStepParam, hg2, hds g hpo]

/-- Helper: the second_step restore loop over one parameter list. -/
lemma secondStepRestoreParams_eq (l₀ l₁ : List SamParam)
    (h : List.Forall₂ (fun po pn =>
      (po.grad = none → pn.data = po.data)
      ∧ (∀ g, po.grad = some g → pn.old_p = some po.data)
      ∧ pn.grad.isSome = po.grad.isSome) l₀ l₁) :
    ∃ l₂, secondStepRestoreParams l₁ = some l₂
      ∧ List.Forall₂ (fun po p₂ => p₂.data = po.data) l₀ l₂ := by
  induction h with
  | nil => exact ⟨[], rfl, List.Forall₂.nil⟩
  | cons hpq htail ih =>
      obtain ⟨l₂, hl₂, hrel⟩ := ih
      obtain ⟨q, hq, hqd⟩ := secondStepParam_eq_of _ _ hpq.1 hpq.2.1 hpq.2.2
      exact ⟨q :: l₂, by simp [secondStepRestoreParams, hq, hl₂],
        List.Forall₂.cons hqd hrel⟩

/-- Helper: the second_step restore loop over the whole state. -/
lemma secondStepRestore_eq (gs₀ gs₁ : List SamGroup)
    (h : List.Forall₂ (fun g₀ g₁ => List.Forall₂ (fun po pn =>
      (po.grad = none → pn.data = po.data)
      ∧ (∀ g, po.grad = some g → pn.old_p = some po.data)
      ∧ pn.grad.isSome = po.grad.isSome) g₀.params g₁.params) gs₀ gs₁) :
    ∃ gs₂, secondStepRestore gs₁ = some gs₂
      ∧ StateRel (fun po p₂ => p₂.data = po.data) gs₀ gs₂ := by
  induction h with
  | nil => exact ⟨[], rfl, List.Forall₂.nil⟩
  | @cons a b l₁ l₂ hgrel htail ih =>
      obtain ⟨gs₂, hgs₂, hrel⟩ := ih
      obtain ⟨ps₂, hps₂, hlrel⟩ := secondStepRestoreParams_eq _ _ hgrel
      refine ⟨{ b with params := ps₂ } :: gs₂,
        by simp [secondStepRestore, hps₂, hgs₂], ?_⟩
      exact List.Forall₂.cons hlrel hrel

/-- C1: in the SAM regime (`epoch >= sam_start_epoch`) a trainB step
performs exactly two forward and two backward passes; `first_step`
snapshots every gradient-bearing parameter's pre-perturbation value in
`old_p`; and for any second-pass gradients that are present exactly on
the parameters that bore first-pass gradients, the restore loop of
`second_step` succeeds and every parameter's value immediately before
the wrapped base optimizer's update equals its pre-perturbation value,
so the update sees only the second gradient. -/
theorem sam_two_pass_invariant (epoch samStart : ℕ) (hreg : samStart ≤ epoch)
    (gs gs₁ : List SamGroup)
    (hdata : StateRel (fun pm pn => pn.data = pm.data ∧ pn.old_p = pm.old_p)
      (first_step true gs) gs₁)
    (hgrad : StateRel (fun po pn => pn.grad.isSome = po.grad.isSome) gs gs₁) :
    ((trainB_step_events epoch samStart).count Ev.forward = 2
      ∧ (trainB_step_events epoch samStart).count Ev.backward = 2)
    ∧ StateRel (fun po pm => ∀ g, po.grad = some g → pm.old_p = some po.data)
        gs (first_step true gs)
    ∧ ∃ gs₂, secondStepRestore gs₁ = some gs₂
        ∧ StateRel (fun po p₂ => p₂.data = po.data) gs gs₂ := by
  have htrace : trainB_step_events epoch samStart =
      [Ev.forward, Ev.backward, Ev.firstStep, Ev.forward, Ev.backward, Ev.secondStep,
        Ev.clip] := by
    simp [trainB_step_events, hreg]
  refine ⟨⟨by rw [htrace]; decide, by rw [htrace]; decide⟩, ?_, ?_⟩
  · rw [StateRel, first_step_true_eq, List.forall₂_map_right_iff]
    rw [List.forall₂_same]
    intro grp _
    rw [ParamsRel]
    simp only [List.forall₂_map_right_iff]
    rw [List.forall₂_same]
    intro p _
    intro g hg
    simp [zeroGradParam, firstStepParam, hg]
  · rw [StateRel, first_step_true_eq] at hdata
    rw [List.forall₂_map_left_iff] at hdata
    rw [StateRel] at hgrad
    have hcomb := forall₂_conj hdata hgrad
    refine secondStepRestore_eq gs gs₁ (hcomb.imp ?_)
    intro g₀ g₁ hpair
    obtain ⟨hd, hgr⟩ := hpair
    rw [ParamsRel] at hd hgr
    simp only [List.forall₂_map_left_iff] at hd
    have hc := forall₂_conj hd hgr
    refine hc.imp ?_
    intro po pn hpn
    obtain ⟨⟨hdata1, hold1⟩, hgr1⟩ := hpn
    refine ⟨?_, ?_, hgr1⟩
    · intro hnone
      rw [hdata1]
      simp [zeroGradParam, firstStepParam, hnone]
    · intro g hsome
      rw [hold1]
      simp [zeroGradParam, firstStepParam, hsome]

/-- Assigning the gradients a second backward pass would produce (the
same fresh gradient on every parameter, enough to witness the
invariant). -/
def setAllGrads (g? : Option ℝ) (gs : List SamGroup) : List SamGroup :=
  gs.map fun grp => { grp with params := grp.params.map fun p => { p with grad := g? } }

/-- Helper: a pointwise relation between a state and its regraded
copy. -/
lemma stateRel_setAllGrads (g? : Option ℝ) (gs : List SamGroup)
    (r : SamParam → SamParam → Prop) (h : ∀ p, r p { p with grad := g? }) :
    StateRel r gs (setAllGrads g? gs) := by
  rw [StateRel, setAllGrads, List.forall₂_map_right_iff, List.forall₂_same]
  intro grp _
  rw [ParamsRel]
  simp only [List.forall₂_map_right_iff]
  rw [List.forall₂_same]
  intro p _
  exact h p

/-- Helper: when every parameter bears a first-pass gradient, the
regraded post-first_step state has gradients present exactly where the
original state had them. -/
lemma stateRel_grad_isSome_regrade (g0 : ℝ) (gs : List SamGroup)
    (hall : ∀ grp ∈ gs, ∀ p ∈ grp.params, p.grad.isSome = true) :
    StateRel (fun po pn => pn.grad.isSome = po.grad.isSome) gs
      (setAllGrads (some g0) (first_step true gs)) := by
  rw [first_step_true_eq, setAllGrads, List.map_map]
  rw [StateRel, List.forall₂_map_right_iff, List.forall₂_same]
  intro grp hgrp
  rw [ParamsRel]
  simp only [Function.comp_apply, List.map_map]
  rw [List.forall₂_map_right_iff, List.forall₂_same]
  intro p hp
  simp [hall grp hgrp p hp]

/-- A concrete one-group, one-parameter SAM state (rho 1, non-adaptive,
value 1, first-pass gradient 2) witnessing the restore invariant. -/
noncomputable def gsW : List SamGroup := [⟨1, false, [⟨1, some 2, none⟩]⟩]

/-- The witness state after first_step(zero_grad=True) and a second
backward pass that assigns gradient 3 to the (unique) parameter. -/
noncomputable def gsW1 : List SamGroup := setAllGrads (some 3) (first_step true gsW)

/-- Witness for sam_two_pass_invariant at the concrete state gsW with
second-pass gradients gsW1. -/
theorem sam_two_pass_invariant_witness :
    ((trainB_step_events 1 0).count Ev.forward = 2
      ∧ (trainB_step_events 1 0).count Ev.backward = 2)
    ∧ StateRel (fun po pm => ∀ g, po.grad = some g → pm.old_p = some po.data)
        gsW (first_step true gsW)
    ∧ ∃ gs₂, secondStepRestore gsW1 = some gs₂
        ∧ StateRel (fun po p₂ => p₂.data = po.data) gsW gs₂ := by
  refine sam_two_pass_invariant 1 0 (by omega) gsW gsW1 ?_ ?_
  · exact stateRel_setAllGrads (some 3) (first_step true gsW) _ fun p => ⟨rfl, rfl⟩
  · rw [gsW1]
    refine stateRel_grad_isSome_regrade 3 gsW ?_
    intro grp hgrp p hp
    rw [gsW] at hgrp
    simp only [List.mem_singleton] at hgrp
    rw [hgrp] at hp
    simp only [List.mem_singleton] at hp
    rw [hp]
    rfl

/-- Helper: the data/old_p behaviour of the per-parameter first_step
body. -/
lemma firstStepParam_cases (rho : ℝ) (ad : Bool) (gn : ℝ) (po : SamParam) :
    (po.grad = none →
      (firstStepParam rho ad gn po).data = po.data
      ∧ (firstStepParam rho ad gn po).old_p = po.old_p)
    ∧ ∀ g, po.grad = some g →
        (firstStepParam rho ad gn po).data
          = po.data + (if ad then po.data ^ 2 else 1) * g * (rho / (gn + eps12))
        ∧ (firstStepParam rho ad gn po).old_p = some po.data := by
  constructor
  · intro h; rw [firstStepParam, h]; exact ⟨rfl, rfl⟩
  · intro g h; rw [firstStepParam, h]; exact ⟨rfl, rfl⟩

/-- C3 (amended): first_step perturbs each gradient-bearing parameter
by `rho * grad / (grad_norm + 1e-12)` where in adaptive mode the
perturbation is scaled elementwise by `p^2` (the source's
`torch.pow(p, 2)`, not `|p|`), snapshots the pre-perturbation value in
old_p, and leaves gradient-free parameters untouched; the global
gradient norm it normalizes by scales each entry by `|p|` in adaptive
mode, as the second conjunct exhibits on a one-parameter adaptive
state. -/
theorem sam_first_step_scaling (zg : Bool) (gs : List SamGroup) :
    List.Forall₂ (fun grp grpF =>
      List.Forall₂ (fun po pm =>
        (po.grad = none → pm.data = po.data ∧ pm.old_p = po.old_p)
        ∧ ∀ g, po.grad = some g →
            pm.data = po.data
              + (if grp.adaptive then po.data ^ 2 else 1) * g
                * (grp.rho / (grad_norm gs + eps12))
            ∧ pm.old_p = some po.data)
        grp.params grpF.params)
      gs (first_step zg gs)
    ∧ ∀ (rho d g : ℝ) (o : Option ℝ),
        grad_norm [⟨rho, true, [⟨d, some g, o⟩]⟩] = |d| * |g| := by
  constructor
  · cases zg with
    | false =>
        have hfs : first_step false gs = gs.map (firstStepGroup (grad_norm gs)) := by
          simp [first_step]
        rw [hfs, List.forall₂_map_right_iff, List.forall₂_same]
        intro grp _
        show List.Forall₂ _ grp.params
          (List.map (firstStepParam grp.rho grp.adaptive (grad_norm gs)) grp.params)
        rw [List.forall₂_map_right_iff, List.forall₂_same]
        intro p _
        exact firstStepParam_cases grp.rho grp.adaptive (grad_norm gs) p
    | true =>
        rw [first_step_true_eq, List.forall₂_map_right_iff, List.forall₂_same]
        intro grp _
        show List.Forall₂ _ grp.params
          (List.map (fun p =>
            zeroGradParam (firstStepParam grp.rho grp.adaptive (grad_norm gs) p)) grp.params)
        rw [List.forall₂_map_right_iff, List.forall₂_same]
        intro p _
        exact ⟨fun h => (firstStepParam_cases grp.rho grp.adaptive (grad_norm gs) p).1 h,
          fun g h => (firstStepParam_cases grp.rho grp.adaptive (grad_norm gs) p).2 g h⟩
  · intro rho d g o
    rw [grad_norm, gradNormTerms]
    simp only [List.flatMap_cons, List.flatMap_nil, List.filterMap_cons, Option.map_some,
      Option.map_some', List.filterMap_nil, List.append_nil, if_pos, List.map_cons,
      List.map_nil, List.sum_cons, List.sum_nil, add_zero]
    rw [sq_abs, Real.sqrt_sq_eq_abs, abs_mul, abs_abs]

/-- A concrete one-group adaptive SAM state (rho 1, value -2,
gradient 1) on which the source's `p^2` perturbation scaling differs
from the spec's `|p|`. -/
noncomputable def gsC3 : List SamGroup := [⟨1, true, [⟨-2, some 1, none⟩]⟩]

/-- Helper: the global gradient norm of the concrete state gsC3. -/
lemma grad_norm_gsC3 : grad_norm gsC3 = 2 := by
  rw [gsC3, grad_norm, gradNormTerms]
  simp only [List.flatMap_cons, List.flatMap_nil, List.filterMap_cons, Option.map_some,
    Option.map_some', List.filterMap_nil, List.append_nil, if_pos, List.map_cons,
    List.map_nil, List.sum_cons, List.sum_nil, add_zero]
  rw [show |(|(-2 : ℝ)| * 1)| ^ 2 = 2 ^ 2 by norm_num [abs_of_nonpos]]
  exact Real.sqrt_sq (by norm_num)

/-- C3 counterexample: on the adaptive state gsC3 the value written by
the source's first_step (perturbation scaled by `p^2 = 4`) differs
from the spec-worded variant (scaled by `|p| = 2`), refuting the
claim's `|p|` scaling of the perturbation. -/
theorem sam_adaptive_scaling_counterexample :
    ((first_step false gsC3).headI.params.headI).data
      ≠ ((first_step_specModel false gsC3).headI.params.headI).data := by
  have hnorm := grad_norm_gsC3
  rw [gsC3] at hnorm ⊢
  simp only [first_step, first_step_specModel, if_neg Bool.false_ne_true, Bool.false_eq_true,
    ite_false, List.map_cons, List.map_nil, firstStepGroup, firstStepParam, firstStepParamSpec,
    List.headI, hnorm]
  norm_num [eps12]

/-- Witness for sam_first_step_scaling: on the concrete state gsC3 the
snapshot equals the pre-perturbation value -2, and the adaptive
gradient norm of a one-parameter state is `|p| * |grad|`. -/
theorem sam_first_step_scaling_witness :
    ((first_step false gsC3).headI.params.headI).old_p = some (-2)
    ∧ grad_norm [⟨(5 : ℝ), true, [⟨3, some (-2), none⟩]⟩] = |(3 : ℝ)| * |(-2 : ℝ)| := by
  constructor
  · have h := (sam_first_step_scaling false gsC3).1
    rw [gsC3] at h
    rcases List.forall₂_cons_left_iff.mp h with ⟨grpF, rest, hrel, _, heq⟩
    rcases List.forall₂_cons_left_iff.mp hrel with ⟨pm, prest, hprel, _, hpeq⟩
    have hold := (hprel.2 1 rfl).2
    rw [gsC3, heq]
    simp only [List.headI, hpeq]
    exact hold
  · exact (sam_first_step_scaling false []).2 5 3 (-2) none

end MedTrain

